import Mathlib

/-!
Verification of the job_runner repository against its specification.

The definitions below are a shallow embedding of the Go source:

* pkg/bufferz (MultiReader broadcast log),
* pkg/cgroupz (v2 cgroup creation and its knob-file writes),
* pkg/authorizer (static subject/role/action map),
* pkg/jobs (Job lifecycle: Start guard, Result),
* lib/jobs/service.go (registry Service: StartJob, GetJob, StopJob) and
  lib/jobs api handlers (authentication/authorization prologue, Start limits).

Bytes are modelled as Nat, Go byte slices as List Nat, Go maps as association
lists, and Go int32 arithmetic as Nat bit patterns reduced mod 2^32 with an
explicit signed reinterpretation.  Stateful Go methods become pure functions
from state to state, and the concurrent interleavings of Write / Close /
GetReader / Read calls on a broadcast log become a small-step relation.
-/

/-- Model of pkg/bufferz MultiReader: the append-only byte vector plus the
closed flag.  The mutex, condition variable and closeChan of the Go struct
serialize the operations; in the sequential model each operation is atomic. -/
structure MultiReader where
  data : List Nat
  closed : Bool
deriving DecidableEq

/-- bufferz.NewMultiReaderBuffer: empty data, not closed. -/
def NewMultiReaderBuffer : MultiReader :=
  { data := [], closed := false }

/-- MultiReader.Write: if Close was called, return the error without touching
the data; otherwise append p and return its length. -/
def MultiReader.Write (m : MultiReader) (p : List Nat) : MultiReader × Except String Nat :=
  if m.closed then
    (m, Except.error "multireader: close called")
  else
    ({ m with data := m.data ++ p }, Except.ok p.length)

/-- MultiReader.Close: if already closed, return nil immediately (the Go code
checks closeCalled() and returns nil); otherwise set the flag.  The Go method
always returns a nil error, modelled by the Option String component. -/
def MultiReader.Close (m : MultiReader) : MultiReader × Option String :=
  if m.closed then
    (m, none)
  else
    ({ m with closed := true }, none)

/-- Number of bytes one Read call copies: copy(p, m.data[pos:]) is executed
only when pos < len(m.data) and copies min(len p, len(data) - pos) bytes. -/
def readLen (data : List Nat) (pos bufLen : Nat) : Nat :=
  if pos < data.length then min bufLen (data.length - pos) else 0

/-- The bytes one Read call copies into the caller's buffer. -/
def readChunk (data : List Nat) (pos bufLen : Nat) : List Nat :=
  (data.drop pos).take (readLen data pos bufLen)

theorem readChunk_length (data : List Nat) (pos bufLen : Nat) :
    (readChunk data pos bufLen).length = readLen data pos bufLen := by
  unfold readChunk readLen
  by_cases h : pos < data.length
  · simp [h, List.length_take, List.length_drop]
  · simp [h]

theorem readLen_le (data : List Nat) (pos bufLen : Nat) (hpos : pos ≤ data.length) :
    pos + readLen data pos bufLen ≤ data.length := by
  unfold readLen
  by_cases h : pos < data.length
  · simp [h]; omega
  · simp [h]; omega

theorem readLen_pos (data : List Nat) (pos bufLen : Nat)
    (hpos : pos < data.length) (hbuf : 1 ≤ bufLen) :
    1 ≤ readLen data pos bufLen := by
  unfold readLen
  simp [hpos]
  omega

/-- One reader produced by MultiReader.GetReader: its private cursor pos, the
bytes it has observed so far (ghost, for stating the prefix property), and
whether its context has been cancelled. -/
structure ReaderSt where
  pos : Nat
  obs : List Nat
  cancelled : Bool
deriving DecidableEq

/-- A broadcast log together with all readers obtained from GetReader. -/
structure LogSys where
  log : MultiReader
  readers : List ReaderSt
deriving DecidableEq

/-- The system as it is right after bufferz.NewMultiReaderBuffer. -/
def LogSys.init : LogSys :=
  { log := NewMultiReaderBuffer, readers := [] }

/-- The effect of one unblocked Read call on the reader's private state:
cursor advanced by the number of copied bytes, observation extended by the
copied chunk. -/
def ReaderSt.afterRead (r : ReaderSt) (data : List Nat) (bufLen : Nat) : ReaderSt :=
  { r with pos := r.pos + readLen data r.pos bufLen,
           obs := r.obs ++ readChunk data r.pos bufLen }

/-- Small-step relation covering every interleaving of the MultiReader
operations.  Each step is one critical section of the Go code:

* write: one MultiReader.Write call (the closed check makes it a no-op error
  after Close, which Write itself models);
* close: one MultiReader.Close call;
* newReader: one MultiReader.GetReader call, cursor 0, nothing observed;
* cancel: a reader's context is cancelled (its goroutine broadcasts, waking
  waiters; the reader state itself only records the flag);
* readCancelled: a Read call on a cancelled reader returns (0, ctx.Err())
  without moving the cursor;
* read: a Read call that is not blocked, i.e. the for-loop exits: either the
  closeChan is closed or pos < len(data).  It copies readLen bytes and
  advances the cursor.  A call with cursor at the tail of an open log blocks
  in cond.Wait and is not a step. -/
inductive LogStep : LogSys → LogSys → Prop
  | write (s : LogSys) (p : List Nat) :
      LogStep s { s with log := (s.log.Write p).1 }
  | close (s : LogSys) :
      LogStep s { s with log := s.log.Close.1 }
  | newReader (s : LogSys) :
      LogStep s { s with readers := s.readers ++ [{ pos := 0, obs := [], cancelled := false }] }
  | cancel (s : LogSys) (i : Nat) (r : ReaderSt) (h : s.readers[i]? = some r) :
      LogStep s { s with readers := s.readers.set i { r with cancelled := true } }
  | readCancelled (s : LogSys) (i : Nat) (r : ReaderSt) (bufLen : Nat)
      (h : s.readers[i]? = some r) (hc : r.cancelled = true) :
      LogStep s s
  | read (s : LogSys) (i : Nat) (r : ReaderSt) (bufLen : Nat)
      (h : s.readers[i]? = some r) (hc : r.cancelled = false)
      (henabled : s.log.closed = true ∨ r.pos < s.log.data.length) :
      LogStep s { s with readers := s.readers.set i (r.afterRead s.log.data bufLen) }

/-- States reachable from a fresh MultiReader by any interleaving of calls. -/
def LogReachable (s : LogSys) : Prop :=
  Relation.ReflTransGen LogStep LogSys.init s

/-- The per-reader invariant: a reader has observed exactly the first pos
bytes of the log, and its cursor never passes the tail. -/
def ReaderInv (data : List Nat) (r : ReaderSt) : Prop :=
  r.obs = data.take r.pos ∧ r.pos ≤ data.length

def LogInv (s : LogSys) : Prop :=
  ∀ r ∈ s.readers, ReaderInv s.log.data r

theorem logInv_init : LogInv LogSys.init := by
  intro r hr
  simp [LogSys.init, NewMultiReaderBuffer] at hr

theorem readerInv_write (data p : List Nat) (r : ReaderSt) (h : ReaderInv data r) :
    ReaderInv (data ++ p) r := by
  obtain ⟨hobs, hle⟩ := h
  constructor
  · rw [hobs, List.take_append_of_le_length hle]
  · simp
    omega

theorem readerInv_read (data : List Nat) (r : ReaderSt) (bufLen : Nat)
    (h : ReaderInv data r) :
    ReaderInv data (r.afterRead data bufLen) := by
  obtain ⟨hobs, hle⟩ := h
  constructor
  · show r.obs ++ readChunk data r.pos bufLen = data.take (r.pos + readLen data r.pos bufLen)
    rw [hobs, List.take_add, readChunk]
  · show r.pos + readLen data r.pos bufLen ≤ data.length
    exact readLen_le data r.pos bufLen hle

theorem logInv_step (s t : LogSys) (hst : LogStep s t) (hinv : LogInv s) : LogInv t := by
  cases hst with
  | write p =>
      intro r hr
      unfold MultiReader.Write
      by_cases hcl : s.log.closed
      · simpa [hcl] using hinv r (by simpa using hr)
      · simp only [hcl, Bool.false_eq_true, if_false]
        exact readerInv_write s.log.data p r (hinv r (by simpa using hr))
  | close =>
      intro r hr
      unfold MultiReader.Close
      by_cases hcl : s.log.closed
      · simpa [hcl] using hinv r (by simpa using hr)
      · simpa [hcl] using hinv r (by simpa using hr)
  | newReader =>
      intro r hr
      simp only [List.mem_append, List.mem_singleton] at hr
      rcases hr with hr | hr
      · exact hinv r hr
      · subst hr
        constructor <;> simp [ReaderInv]
  | cancel i r0 h =>
      intro r hr
      simp only at hr
      rcases List.mem_or_eq_of_mem_set hr with hmem | heq
      · exact hinv r hmem
      · subst heq
        have h0 := hinv r0 (List.getElem?_mem h)
        exact ⟨h0.1, h0.2⟩
  | readCancelled i r0 bufLen h hc =>
      exact hinv
  | read i r0 bufLen h hc henabled =>
      intro r hr
      simp only at hr
      rcases List.mem_or_eq_of_mem_set hr with hmem | heq
      · exact hinv r hmem
      · subst heq
        exact readerInv_read s.log.data r0 bufLen (hinv r0 (List.getElem?_mem h))

theorem logInv_reachable (s : LogSys) (h : LogReachable s) : LogInv s := by
  induction h with
  | refl => exact logInv_init
  | tail _ hstep ih => exact logInv_step _ _ hstep ih

/-- Claim C1: for any two readers of the same broadcast log, the byte
sequences they have observed are prefix-ordered: if reader r1 has observed S1
and r2 has observed S2 with length S1 <= length S2, then S1 is a prefix of S2
(there is a suffix t with S1 ++ t = S2); moreover every reader's observed
bytes equal exactly the first pos bytes of the log for its cursor pos, with
no gaps and no reordering, for every interleaving of Write, Close and Read
calls. -/
theorem claim_C1_reader_views_are_prefix_ordered (s : LogSys) (r1 r2 : ReaderSt)
    (hs : LogReachable s) (h1 : r1 ∈ s.readers) (h2 : r2 ∈ s.readers)
    (hlen : r1.obs.length ≤ r2.obs.length) :
    r1.obs = s.log.data.take r1.pos ∧ ∃ t, r1.obs ++ t = r2.obs := by
  have hinv := logInv_reachable s hs
  obtain ⟨hobs1, hle1⟩ := hinv r1 h1
  obtain ⟨hobs2, hle2⟩ := hinv r2 h2
  refine ⟨hobs1, ?_⟩
  have hl1 : r1.obs.length = r1.pos := by
    rw [hobs1, List.length_take]
    omega
  have hl2 : r2.obs.length = r2.pos := by
    rw [hobs2, List.length_take]
    omega
  have hp : r1.pos ≤ r2.pos := by omega
  refine ⟨(s.log.data.drop r1.pos).take (r2.pos - r1.pos), ?_⟩
  rw [hobs1, hobs2, ← List.take_add]
  congr 1
  omega

/-- Concrete system used to witness claim C1: bytes [1,2] written, two
readers created, the first has read both bytes. -/
def c1State : LogSys :=
  { log := { data := [1,2], closed := false },
    readers := [{ pos := 2, obs := [1,2], cancelled := false },
                { pos := 0, obs := [], cancelled := false }] }

def c1ReaderA : ReaderSt := { pos := 2, obs := [1,2], cancelled := false }

def c1ReaderB : ReaderSt := { pos := 0, obs := [], cancelled := false }

/-- Witness for claim C1 on a concrete interleaving: write [1,2], create two
readers, let the first one read 2 bytes; the second reader's observation []
is a prefix of the first reader's observation [1,2]. -/
theorem claim_C1_witness :
    LogReachable c1State ∧ c1ReaderB ∈ c1State.readers ∧ c1ReaderA ∈ c1State.readers ∧
    c1ReaderB.obs.length ≤ c1ReaderA.obs.length ∧
    (c1ReaderB.obs = c1State.log.data.take c1ReaderB.pos ∧
      ∃ t, c1ReaderB.obs ++ t = c1ReaderA.obs) := by
  have h1 : LogStep LogSys.init
      { log := { data := [1,2], closed := false }, readers := [] } :=
    LogStep.write LogSys.init [1,2]
  have h2 : LogStep { log := { data := [1,2], closed := false }, readers := [] }
      { log := { data := [1,2], closed := false },
        readers := [{ pos := 0, obs := [], cancelled := false }] } :=
    LogStep.newReader _
  have h3 : LogStep
      { log := { data := [1,2], closed := false },
        readers := [{ pos := 0, obs := [], cancelled := false }] }
      { log := { data := [1,2], closed := false },
        readers := [{ pos := 0, obs := [], cancelled := false },
                    { pos := 0, obs := [], cancelled := false }] } :=
    LogStep.newReader _
  have h4 : LogStep
      { log := { data := [1,2], closed := false },
        readers := [{ pos := 0, obs := [], cancelled := false },
                    { pos := 0, obs := [], cancelled := false }] }
      c1State :=
    LogStep.read _ 0 { pos := 0, obs := [], cancelled := false } 2 rfl rfl
      (Or.inr (by decide))
  have hreach : LogReachable c1State :=
    Relation.ReflTransGen.tail
      (Relation.ReflTransGen.tail
        (Relation.ReflTransGen.tail (Relation.ReflTransGen.single h1) h2) h3) h4
  refine ⟨hreach, by decide, by decide, by decide, ?_⟩
  exact claim_C1_reader_views_are_prefix_ordered _ _ _ hreach (by decide) (by decide)
    (by decide)

/-- Repeated Read calls by one reader starting at cursor pos, as io.ReadAll /
io.Copy perform them: call Read, accumulate the returned bytes, stop at
io.EOF.  On a closed log a Read call never blocks: the select sees the closed
closeChan and breaks the loop, copies readLen bytes, and reports io.EOF as
soon as the cursor has reached the end (closeCalled && pos == len(data)).
The fuel argument bounds the number of Read calls; on a closed log
data.length + 1 calls always suffice.  The Bool records whether io.EOF was
reached. -/
def readAllGo : Nat → MultiReader → Nat → Nat → List Nat × Bool
  | 0, _, _, _ => ([], false)
  | fuel+1, m, pos, bufLen =>
    let n := readLen m.data pos bufLen
    let chunk := readChunk m.data pos bufLen
    let eof := m.closed && decide (pos + n = m.data.length)
    if eof then (chunk, true)
    else
      let rest := readAllGo fuel m (pos + n) bufLen
      (chunk ++ rest.1, rest.2)

/-- A fresh reader (GetReader, cursor 0) draining the log with a buffer of
bufLen bytes per Read call. -/
def MultiReader.readAll (m : MultiReader) (bufLen : Nat) : List Nat × Bool :=
  readAllGo (m.data.length + 1) m 0 bufLen

/-- A writer appending a sequence of chunks via MultiReader.Write. -/
def writeAll (m : MultiReader) (chunks : List (List Nat)) : MultiReader :=
  chunks.foldl (fun acc c => (acc.Write c).1) m

theorem writeAll_open : ∀ (chunks : List (List Nat)) (m : MultiReader),
    m.closed = false →
    writeAll m chunks = { data := m.data ++ chunks.flatten, closed := false } := by
  intro chunks
  induction chunks with
  | nil =>
      intro m hm
      cases m
      simp_all [writeAll]
  | cons c cs ih =>
      intro m hm
      have hwrite : (m.Write c).1 = { data := m.data ++ c, closed := false } := by
        cases m
        simp_all [MultiReader.Write]
      calc writeAll m (c :: cs) = writeAll (m.Write c).1 cs := rfl
        _ = { data := (m.data ++ c) ++ cs.flatten, closed := false } := by
              rw [hwrite, ih { data := m.data ++ c, closed := false } rfl]
        _ = { data := m.data ++ (c :: cs).flatten, closed := false } := by
              simp

theorem readAllGo_closed (m : MultiReader) (hclosed : m.closed = true) (bufLen : Nat)
    (hbuf : 1 ≤ bufLen) :
    ∀ (fuel pos : Nat), pos ≤ m.data.length → m.data.length - pos < fuel →
    readAllGo fuel m pos bufLen = (m.data.drop pos, true) := by
  intro fuel
  induction fuel with
  | zero =>
      intro pos _ hfuel
      omega
  | succ f ih =>
      intro pos hpos hfuel
      by_cases hend : pos < m.data.length
      · have hn1 : 1 ≤ readLen m.data pos bufLen := readLen_pos m.data pos bufLen hend hbuf
        have hnle : pos + readLen m.data pos bufLen ≤ m.data.length :=
          readLen_le m.data pos bufLen hpos
        by_cases heof : pos + readLen m.data pos bufLen = m.data.length
        · have hchunk : readChunk m.data pos bufLen = m.data.drop pos := by
            unfold readChunk
            apply List.take_of_length_le
            rw [List.length_drop]
            omega
          simp [readAllGo, hclosed, heof, hchunk]
        · have hrec := ih (pos + readLen m.data pos bufLen) hnle (by omega)
          have hchunk : readChunk m.data pos bufLen ++
              m.data.drop (pos + readLen m.data pos bufLen) = m.data.drop pos := by
            unfold readChunk
            rw [← List.drop_drop, List.take_append_drop]
          simp [readAllGo, hclosed, heof, hrec, hchunk]
      · have hpos2 : pos = m.data.length := by omega
        subst hpos2
        have hn0 : readLen m.data m.data.length bufLen = 0 := by
          unfold readLen
          simp
        have hchunk : readChunk m.data m.data.length bufLen = [] := by
          unfold readChunk
          simp [hn0]
        simp [readAllGo, hclosed, hn0, hchunk, List.drop_length]

/-- Claim C2: for every byte sequence written to a broadcast log (as any
sequence of Write chunks), after Close a reader created by GetReader with a
never-cancelled context reads exactly those bytes from offset 0 and then
receives io.EOF, whatever positive buffer size its Read calls use. -/
theorem claim_C2_late_reader_reads_full_log (chunks : List (List Nat)) (bufLen : Nat)
    (hbuf : 1 ≤ bufLen) :
    ((writeAll NewMultiReaderBuffer chunks).Close.1).readAll bufLen =
      (chunks.flatten, true) := by
  have hw : writeAll NewMultiReaderBuffer chunks =
      { data := chunks.flatten, closed := false } := by
    have := writeAll_open chunks NewMultiReaderBuffer rfl
    simpa [NewMultiReaderBuffer] using this
  have hc : (writeAll NewMultiReaderBuffer chunks).Close.1 =
      { data := chunks.flatten, closed := true } := by
    rw [hw]
    simp [MultiReader.Close]
  rw [hc]
  unfold MultiReader.readAll
  have := readAllGo_closed { data := chunks.flatten, closed := true } rfl bufLen hbuf
    (chunks.flatten.length + 1) 0 (by simp) (by simp)
  simpa using this

/-- Witness for claim C2: write [1,2] then [3], close, and drain with a
2-byte buffer: the reader gets [1,2,3] and then EOF. -/
theorem claim_C2_witness :
    1 ≤ 2 ∧
    ((writeAll NewMultiReaderBuffer [[1,2],[3]]).Close.1).readAll 2 = ([1,2,3], true) := by
  refine ⟨by decide, ?_⟩
  have h := claim_C2_late_reader_reads_full_log [[1,2],[3]] 2 (by decide)
  simpa using h

theorem write_of_closed (m : MultiReader) (p : List Nat) (h : m.closed = true) :
    m.Write p = (m, Except.error "multireader: close called") := by
  unfold MultiReader.Write
  simp [h]

theorem close_of_closed (m : MultiReader) (h : m.closed = true) :
    m.Close = (m, none) := by
  unfold MultiReader.Close
  simp [h]

/-- Claim C7: on a broadcast log on which Close has been called, a subsequent
Write of any byte sequence p returns the "multireader: close called" error
and leaves the stored byte vector (indeed the whole state) unchanged, so no
byte of p becomes observable to any reader; and Close is idempotent: a second
Close returns a nil error and changes nothing. -/
theorem claim_C7_write_after_close_fails_and_close_idempotent
    (m : MultiReader) (p : List Nat) :
    (m.Close.1).Write p = (m.Close.1, Except.error "multireader: close called") ∧
    (m.Close.1).Close = (m.Close.1, none) := by
  have hclosed : m.Close.1.closed = true := by
    unfold MultiReader.Close
    by_cases h : m.closed
    · simp [h]
    · simp [h]
  exact ⟨write_of_closed _ p hclosed, close_of_closed _ hclosed⟩

/-- pkg/cgroupz ResourceLimit: cpu weight and memory maximum (0 means do not
set), optional io limit triple.  Field MaxIO of the Go struct is spelled
MaxIo here. -/
structure IoLimit where
  MaxIo : Int
  Maj : Int
  Min : Int
deriving DecidableEq

structure ResourceLimit where
  CpuWeight : Int
  MaxMem : Int
  MaxIo : Option IoLimit
deriving DecidableEq

/-- The files cgroupz.New writes to, identified by role.  On disk they are
<mountPoint>/cgroup.subtree_control for subtreeControl and
<mountPoint>/<name>/{cpu.weight, memory.max, io.max} for the knob files; the
path strings play no role in the claims, so file identity is this enum. -/
inductive KnobFile
  | subtreeControl
  | cpuWeight
  | memoryMax
  | ioMax
deriving DecidableEq

/-- Decimal rendering used by strconv.Itoa and the %d verb of fmt.Sprintf. -/
def itoa (i : Int) : String := toString i

/-- The sequence of (file, contents) writes cgroupz.New performs on its
success path, in program order: first "+cpu +memory +io" into the mount
point's cgroup.subtree_control, then each knob whose limit is present —
cpu.weight when CpuWeight is non-zero, memory.max when MaxMem is non-zero,
io.max in the format "<maj>:<min> wiops=<n>" when the MaxIo triple is
non-nil.  A zero / nil limit produces no write for that knob. -/
def cgroupNewWrites (limits : ResourceLimit) : List (KnobFile × String) :=
  [(KnobFile.subtreeControl, "+cpu +memory +io")] ++
  (if limits.CpuWeight = 0 then [] else
    [(KnobFile.cpuWeight, itoa limits.CpuWeight)]) ++
  (if limits.MaxMem = 0 then [] else
    [(KnobFile.memoryMax, itoa limits.MaxMem)]) ++
  (match limits.MaxIo with
   | none => []
   | some iol => [(KnobFile.ioMax,
       itoa iol.Maj ++ ":" ++ itoa iol.Min ++ " wiops=" ++ itoa iol.MaxIo)])

/-- Claim C9: for every successful cgroup creation, each present limit is
written to its knob file with exactly the specified bytes — the decimal
string of CpuWeight to cpu.weight (for example CpuWeight = 99 gives exactly
the bytes "99"), the decimal string of MaxMem to memory.max, and the string
"<maj>:<min> wiops=<n>" to io.max — while a knob whose value is 0 (or an
absent io triple) causes no write to its knob file. -/
theorem claim_C9_cgroup_knob_writes (limits : ResourceLimit) :
    ((cgroupNewWrites limits).lookup KnobFile.cpuWeight =
       if limits.CpuWeight = 0 then none else some (itoa limits.CpuWeight)) ∧
    ((cgroupNewWrites limits).lookup KnobFile.memoryMax =
       if limits.MaxMem = 0 then none else some (itoa limits.MaxMem)) ∧
    ((cgroupNewWrites limits).lookup KnobFile.ioMax =
       match limits.MaxIo with
       | none => none
       | some iol => some (itoa iol.Maj ++ ":" ++ itoa iol.Min ++
           " wiops=" ++ itoa iol.MaxIo)) ∧
    (cgroupNewWrites { CpuWeight := 99, MaxMem := 0, MaxIo := none }).lookup
      KnobFile.cpuWeight = some "99" := by
  obtain ⟨cw, mm, mio⟩ := limits
  refine ⟨?_, ?_, ?_, by decide⟩
  · by_cases hcw : cw = 0 <;> by_cases hmm : mm = 0 <;> cases mio <;>
      simp [cgroupNewWrites, List.lookup, hcw, hmm] <;> rfl
  · by_cases hcw : cw = 0 <;> by_cases hmm : mm = 0 <;> cases mio <;>
      simp [cgroupNewWrites, List.lookup, hcw, hmm] <;> rfl
  · by_cases hcw : cw = 0 <;> by_cases hmm : mm = 0 <;> cases mio <;>
      simp [cgroupNewWrites, List.lookup, hcw, hmm] <;> rfl

/-- pkg/authorizer action tags. -/
def ActionStart : String := "start"

def ActionGet : String := "get"

def ActionStop : String := "stop"

def ActionStream : String := "stream"

structure Role where
  Name : String
  Actions : List String
deriving DecidableEq

structure User where
  Subject : String
  Roles : List Role
deriving DecidableEq

/-- The Users map of the Go Authorizer, as an association list keyed by
subject. -/
structure Authorizer where
  Users : List (String × User)
deriving DecidableEq

/-- authorizer.NewAuthorizer: the static fixture with alice (admin role: all
four actions) and victor (viewer role: get and stream). -/
def NewAuthorizer : Authorizer :=
  { Users :=
      [("alice", { Subject := "alice",
                   Roles := [{ Name := "admin",
                               Actions := [ActionGet, ActionStart, ActionStop, ActionStream] }] }),
       ("victor", { Subject := "victor",
                    Roles := [{ Name := "viewer",
                                Actions := [ActionGet, ActionStream] }] })] }

/-- Authorizer.HasAccess: unknown subject gives (false, non-nil error);
otherwise the double loop over roles and their actions gives (allowed, nil). -/
def Authorizer.HasAccess (a : Authorizer) (subject action : String) :
    Bool × Option String :=
  match a.Users.lookup subject with
  | none => (false, some ("subject " ++ subject ++ " not found"))
  | some user =>
      (user.Roles.any (fun role => role.Actions.any (fun x => x = action)), none)

/-- The grpc status codes the handlers use. -/
inductive Code
  | ok
  | unauthenticated
  | unknown
  | permissionDenied
  | notFound
deriving DecidableEq

/-- The four RPC operations of the JobService. -/
inductive RpcOp
  | get
  | start
  | stop
  | stream
deriving DecidableEq

/-- The action tag each handler passes to HasAccess. -/
def RpcOp.action : RpcOp → String
  | RpcOp.get => ActionGet
  | RpcOp.stop => ActionStop
  | RpcOp.stream => ActionStream
  | RpcOp.start => ActionStart

/-- The identical authentication / authorization prologue of the four
handlers in lib/jobs api (Get, Start, Stop, Stream): authn.FromMD failure
gives codes.Unauthenticated "missing id"; a non-nil HasAccess error gives
codes.Unknown; ok == false gives codes.Unauthenticated "unauthenticated";
otherwise the handler proceeds (none). -/
def rpcAuthGate (a : Authorizer) (userID : Option String) (action : String) :
    Option Code :=
  match userID with
  | none => some Code.unauthenticated
  | some uid =>
      match a.HasAccess uid action with
      | (_, some _) => some Code.unknown
      | (false, none) => some Code.unauthenticated
      | (true, none) => none

/-- The gate as each RPC operation invokes it. -/
def rpcGateFor (a : Authorizer) (userID : Option String) (op : RpcOp) : Option Code :=
  rpcAuthGate a userID op.action

/-- Counterexample to claim C4 as stated: with the fixture authorizer, the
subject victor holds only the viewer role, so Start is not among its allowed
actions, yet the Start handler rejects with codes.Unauthenticated, not
codes.PermissionDenied. -/
theorem claim_C4_counterexample :
    rpcGateFor NewAuthorizer (some "victor") RpcOp.start = some Code.unauthenticated ∧
    rpcGateFor NewAuthorizer (some "victor") RpcOp.start ≠ some Code.permissionDenied := by
  decide

/-- Claim C4 as amended: for every RPC operation, when the authenticated
subject is known to the authorizer but the action is not among its allowed
actions the handler returns codes.Unauthenticated (not PermissionDenied), and
when the subject is unknown to the authorizer it returns codes.Unknown (not
Unauthenticated); in particular victor (viewer role) calling Start is
rejected with Unauthenticated while victor's Get passes the gate. -/
theorem claim_C4_denied_action_yields_unauthenticated
    (a : Authorizer) (op : RpcOp) (subject : String) :
    (a.HasAccess subject op.action = (false, none) →
      rpcGateFor a (some subject) op = some Code.unauthenticated) ∧
    (a.Users.lookup subject = none →
      rpcGateFor a (some subject) op = some Code.unknown) ∧
    rpcGateFor NewAuthorizer (some "victor") RpcOp.start = some Code.unauthenticated ∧
    rpcGateFor NewAuthorizer (some "victor") RpcOp.get = none := by
  refine ⟨?_, ?_, by decide, by decide⟩
  · intro h
    simp [rpcGateFor, rpcAuthGate, h]
  · intro h
    simp [rpcGateFor, rpcAuthGate, Authorizer.HasAccess, h]

/-- Witness for the amended claim C4 at a concrete input: victor is known,
HasAccess denies the start action with a nil error, and the gate returns
codes.Unauthenticated; the unknown subject "mallory" is rejected with
codes.Unknown. -/
theorem claim_C4_witness :
    NewAuthorizer.HasAccess "victor" RpcOp.start.action = (false, none) ∧
    rpcGateFor NewAuthorizer (some "victor") RpcOp.start = some Code.unauthenticated ∧
    NewAuthorizer.Users.lookup "mallory" = none ∧
    rpcGateFor NewAuthorizer (some "mallory") RpcOp.get = some Code.unknown := by
  refine ⟨by decide, ?_, by decide, ?_⟩
  · exact (claim_C4_denied_action_yields_unauthenticated NewAuthorizer RpcOp.start
      "victor").1 (by decide)
  · exact (claim_C4_denied_action_yields_unauthenticated NewAuthorizer RpcOp.get
      "mallory").2.1 (by decide)

/-- proto StartRequest: the command plus the resource-limit fields the wire
protocol carries (cpu_weight, max_mem_use, max_disk_io). -/
structure StartRequest where
  cmd : List String
  cpuWeight : Int
  maxMemUse : Int
  maxDiskIo : Int
deriving DecidableEq

/-- The ResourceLimit the Start handler passes to StartJob.  The handler in
lib/jobs api builds the literal cgroupz.ResourceLimit{CpuWeight: 100,
MaxMem: 1e8, MaxIO: nil} and never reads the limit fields of the request. -/
def startHandlerLimits (_req : StartRequest) : ResourceLimit :=
  { CpuWeight := 100, MaxMem := 100000000, MaxIo := none }

/-- Counterexample to claim C6 as stated: a Start request that supplies
cpu_weight = 50, max_mem_use = 7 and max_disk_io = 9 still results in the job
being created with CpuWeight 100 and MaxMem 100000000 — the request values
are not the limits passed to the job. -/
theorem claim_C6_counterexample :
    startHandlerLimits { cmd := ["x"], cpuWeight := 50, maxMemUse := 7, maxDiskIo := 9 } =
      { CpuWeight := 100, MaxMem := 100000000, MaxIo := none } ∧
    ResourceLimit.CpuWeight
      (startHandlerLimits { cmd := ["x"], cpuWeight := 50, maxMemUse := 7, maxDiskIo := 9 })
      ≠ 50 := by
  decide

/-- Claim C6 as amended: every Start RPC creates the job with exactly
cpu_weight = 100, max_mem_use = 10^8 bytes and max_disk_io unset, regardless
of whether the request supplies limit values — the request's cpu_weight,
max_mem_use and max_disk_io fields are ignored. -/
theorem claim_C6_start_always_uses_default_limits (req : StartRequest) :
    startHandlerLimits req = { CpuWeight := 100, MaxMem := 100000000, MaxIo := none } :=
  rfl

/-- pkg/jobs Status, a string type in Go with four constants; the wire
strings are "unknown", "running", "stopped", "exited". -/
inductive Status
  | unknown
  | running
  | stopped
  | exited
deriving DecidableEq

/-- The parts of the exec.Cmd value relevant to the claims: cmd.Process is
non-nil exactly after cmd.Start() succeeded (processSpawned), and
cmd.ProcessState is non-nil exactly after cmd.Wait() reaped the child,
carrying the exit code. -/
structure CmdState where
  processSpawned : Bool
  processState : Option Int
deriving DecidableEq

/-- pkg/jobs Job: stderr capture, status, the exec.Cmd pointer (none models
the nil pointer of a job whose start never constructed the command), argv and
limits.  The broadcast log handle is shared mutable state modelled
separately. -/
structure Job where
  errStr : String
  status : Status
  cmd : Option CmdState
  command : List String
  limits : ResourceLimit
deriving DecidableEq

/-- jobs.New: an un-executed Job with StatusUnknown and nil cmd. -/
def jobsNew (command : List String) (limits : ResourceLimit) : Job :=
  { errStr := "", status := Status.unknown, cmd := none,
    command := command, limits := limits }

/-- Job.Result: if j.cmd == nil or j.cmd.ProcessState == nil, return
(-1, StatusUnknown); otherwise the reaped exit code and j.Status. -/
def Job.Result (j : Job) : Int × Status :=
  match j.cmd with
  | none => (-1, Status.unknown)
  | some c =>
      match c.processState with
      | none => (-1, Status.unknown)
      | some code => (code, j.status)

/-- Environment for one Job.start attempt: which of the fallible external
calls fail (cgroupz.New, cmd.StdoutPipe, cmd.StderrPipe, cmd.Start), each
with its error text.  none everywhere is a fully successful spawn. -/
structure StartEnv where
  cgroupErr : Option String
  stdoutPipeErr : Option String
  stderrPipeErr : Option String
  spawnErr : Option String
deriving DecidableEq

/-- Result of Job.Start: the guard error or a wrapped failure from start. -/
inductive StartErr
  | alreadyExecuted
  | failed (msg : String)
deriving DecidableEq

/-- The unexported Job.start, in program order: cgroupz.New (on failure the
cmd pointer is never assigned); then j.cmd is assigned the cradle
exec.CommandContext value (Process still nil) and j.Status is set to Running
before the pipes are wired; StdoutPipe and StderrPipe failures return with
the cmd assigned but unspawned; cmd.Start() failure likewise leaves
cmd.Process nil; on success cmd.Process is set and the pump goroutines are
started. -/
def Job.start (j : Job) (env : StartEnv) : Job × Option String :=
  match env.cgroupErr with
  | some e => (j, some ("cgroupz.New: " ++ e))
  | none =>
      let j1 := { j with cmd := some { processSpawned := false, processState := none },
                         status := Status.running }
      match env.stdoutPipeErr with
      | some e => (j1, some ("j.cmd.StdoutPipe: " ++ e))
      | none =>
          match env.stderrPipeErr with
          | some e => (j1, some ("j.cmd.StderrPipe: " ++ e))
          | none =>
              match env.spawnErr with
              | some e => (j1, some ("j.cmd.Start: " ++ e))
              | none =>
                  ({ j1 with cmd := some { processSpawned := true,
                                           processState := none } }, none)

/-- The Start guard: j.cmd != nil && j.cmd.Process != nil. -/
def Job.cmdProcessSet (j : Job) : Bool :=
  match j.cmd with
  | some c => c.processSpawned
  | none => false

/-- Job.Start: if the guard trips, return the "process already executed"
error without touching the job; otherwise run start, and on its failure run
j.close() (which closes the broadcast log and any cgroup, leaving the fields
modelled here unchanged) and propagate the error. -/
def Job.Start (j : Job) (env : StartEnv) : Job × Option StartErr :=
  if j.cmdProcessSet then
    (j, some StartErr.alreadyExecuted)
  else
    match j.start env with
    | (j2, some e) => (j2, some (StartErr.failed e))
    | (j2, none) => (j2, none)

theorem job_start_err_none_iff (j : Job) (env : StartEnv) :
    (j.start env).2 = none ↔
      env.cgroupErr = none ∧ env.stdoutPipeErr = none ∧
      env.stderrPipeErr = none ∧ env.spawnErr = none := by
  obtain ⟨ce, oe, ee, se⟩ := env
  cases ce <;> cases oe <;> cases ee <;> cases se <;> simp [Job.start]

theorem job_start_spawned_iff (j : Job) (env : StartEnv) :
    ((j.start env).1.cmdProcessSet = true ∧ (j.start env).2 = none) ∨
    ((j.start env).1.cmdProcessSet = j.cmdProcessSet ∨
        (j.start env).1.cmdProcessSet = false) ∧ (j.start env).2 ≠ none := by
  obtain ⟨ce, oe, ee, se⟩ := env
  cases ce <;> cases oe <;> cases ee <;> cases se <;>
    simp [Job.start, Job.cmdProcessSet]

/-- Claim C10: Job.Start returns the "process already executed" error exactly
when a previous Start successfully spawned the child (cmd.Process set); a
Start that failed before spawning does not trip the guard, so on a fresh job
a second Start after a failed first Start is never rejected as a repeated
start, while a second Start after a successful one always is. -/
theorem claim_C10_start_guard_exactly_after_spawn
    (j : Job) (env1 env2 : StartEnv) :
    ((j.Start env1).2 = some StartErr.alreadyExecuted ↔ j.cmdProcessSet = true) ∧
    ((j.Start env1).2 = none →
      ((j.Start env1).1.Start env2).2 = some StartErr.alreadyExecuted) ∧
    (∀ e, (j.Start env1).2 = some (StartErr.failed e) →
      ((j.Start env1).1.Start env2).2 ≠ some StartErr.alreadyExecuted) := by
  refine ⟨?_, ?_, ?_⟩
  · by_cases hg : j.cmdProcessSet
    · simp [Job.Start, hg]
    · rcases hs : j.start env1 with ⟨j2, r⟩
      cases r <;> simp [Job.Start, hg, hs]
  · intro hok
    by_cases hg : j.cmdProcessSet
    · simp [Job.Start, hg] at hok
    · rcases hs : j.start env1 with ⟨j2, r⟩
      cases r with
      | some e => simp [Job.Start, hg, hs] at hok
      | none =>
          have hsp : j2.cmdProcessSet = true := by
            rcases job_start_spawned_iff j env1 with ⟨h1, _⟩ | ⟨_, h2⟩
            · rw [hs] at h1; exact h1
            · rw [hs] at h2; simp at h2
          simp [Job.Start, hg, hs, hsp]
  · intro e hfail
    by_cases hg : j.cmdProcessSet
    · simp [Job.Start, hg] at hfail
    · rcases hs : j.start env1 with ⟨j2, r⟩
      cases r with
      | some e2 =>
          have hsp : j2.cmdProcessSet = false := by
            rcases job_start_spawned_iff j env1 with ⟨_, h1⟩ | ⟨h2, _⟩
            · rw [hs] at h1; simp at h1
            · rw [hs] at h2
              simp at h2
              rcases h2 with h2 | h2
              · rw [h2]; simpa using hg
              · exact h2
          have hs2 : (j2.Start env2).2 ≠ some StartErr.alreadyExecuted := by
            by_cases hg2 : j2.cmdProcessSet
            · rw [hg2] at hsp; cases hsp
            · rcases hs3 : j2.start env2 with ⟨j3, r3⟩
              cases r3 <;> simp [Job.Start, hg2, hs3]
          simp [Job.Start, hg, hs]
          exact hs2
      | none => simp [Job.Start, hg, hs] at hfail

/-- Witness for claim C10: on a fresh job a first Start whose cgroup creation
fails returns the wrapped error, and a second Start on the resulting job does
not return "process already executed"; after a fully successful Start the
second Start does. -/
theorem claim_C10_witness :
    ((jobsNew ["x"] { CpuWeight := 100, MaxMem := 100000000, MaxIo := none }).Start
        { cgroupErr := some "boom", stdoutPipeErr := none, stderrPipeErr := none,
          spawnErr := none }).2 = some (StartErr.failed "cgroupz.New: boom") ∧
    (((jobsNew ["x"] { CpuWeight := 100, MaxMem := 100000000, MaxIo := none }).Start
        { cgroupErr := some "boom", stdoutPipeErr := none, stderrPipeErr := none,
          spawnErr := none }).1.Start
        { cgroupErr := none, stdoutPipeErr := none, stderrPipeErr := none,
          spawnErr := none }).2 ≠ some StartErr.alreadyExecuted ∧
    ((jobsNew ["x"] { CpuWeight := 100, MaxMem := 100000000, MaxIo := none }).Start
        { cgroupErr := none, stdoutPipeErr := none, stderrPipeErr := none,
          spawnErr := none }).2 = none ∧
    (((jobsNew ["x"] { CpuWeight := 100, MaxMem := 100000000, MaxIo := none }).Start
        { cgroupErr := none, stdoutPipeErr := none, stderrPipeErr := none,
          spawnErr := none }).1.Start
        { cgroupErr := none, stdoutPipeErr := none, stderrPipeErr := none,
          spawnErr := none }).2 = some StartErr.alreadyExecuted := by
  refine ⟨by decide, ?_, by decide, ?_⟩
  · exact (claim_C10_start_guard_exactly_after_spawn
      (jobsNew ["x"] { CpuWeight := 100, MaxMem := 100000000, MaxIo := none })
      { cgroupErr := some "boom", stdoutPipeErr := none, stderrPipeErr := none,
        spawnErr := none }
      { cgroupErr := none, stdoutPipeErr := none, stderrPipeErr := none,
        spawnErr := none }).2.2 "cgroupz.New: boom" (by decide)
  · exact (claim_C10_start_guard_exactly_after_spawn
      (jobsNew ["x"] { CpuWeight := 100, MaxMem := 100000000, MaxIo := none })
      { cgroupErr := none, stdoutPipeErr := none, stderrPipeErr := none,
        spawnErr := none }
      { cgroupErr := none, stdoutPipeErr := none, stderrPipeErr := none,
        spawnErr := none }).2.1 (by decide)

theorem lookup_append {α β : Type} [BEq α] (l1 l2 : List (α × β)) (k : α) :
    (l1 ++ l2).lookup k =
      match l1.lookup k with
      | some v => some v
      | none => l2.lookup k := by
  induction l1 with
  | nil => simp [List.lookup]
  | cons kv t ih =>
      rcases kv with ⟨a, b⟩
      by_cases h : k == a
      · simp [List.lookup, h]
      · simp only [List.cons_append, List.lookup]
        rw [Bool.of_not_eq_true h]
        exact ih

/-- Two's-complement reading of a Nat bit pattern as a Go int32. -/
def int32ofBits (b : Nat) : Int :=
  if b % 4294967296 < 2147483648 then ((b % 4294967296 : Nat) : Int)
  else ((b % 4294967296 : Nat) : Int) - 4294967296

/-- ider.nextID: atomic.AddInt32(&i.id, 1) on the int32 counter — increment
the 32-bit pattern and return its signed value. -/
def nextID (bits : Nat) : Nat × Int :=
  ((bits + 1) % 4294967296, int32ofBits ((bits + 1) % 4294967296))

/-- lib/jobs JobRecord.  In Go the Job field holds the jobs.Job STRUCT BY
VALUE: StartJob builds record := JobRecord{ID: id, Job: job, ...} before
calling job.Start(), and map insertion copies the record again, so the Job
value in the registry is the pre-Start snapshot; the local variable that
Start, Wait and the wait goroutine mutate is a different copy.  The cancel
func and ctx are shared handles; ctxCancelled models their state. -/
structure JobRecord where
  ID : Int
  Job : Job
  ctxCancelled : Bool
deriving DecidableEq

/-- lib/jobs Service: the ider counter bits and the id -> JobRecord map
(association list; Go map iteration order is irrelevant to the claims). -/
structure Service where
  iderBits : Nat
  store : List (Int × JobRecord)
deriving DecidableEq

/-- jobs.NewService: counter at zero, empty store. -/
def NewService : Service :=
  { iderBits := 0, store := [] }

/-- Service.StartJob.  jobs.New builds the job, s.nextID() allocates the id,
the pre-Start record is inserted under the mutex (after the collision check),
and only then job.Start() runs — on the local copy.  startErr is the outcome
of job.Start(): when it fails StartJob returns the error WITHOUT removing the
inserted record (service.go lines 53-55 return directly); on success the wait
goroutine is spawned and the (stale) record is returned. -/
def Service.StartJob (s : Service) (cmdStr : List String) (limits : ResourceLimit)
    (startErr : Option String) : Service × Except String JobRecord :=
  let job := jobsNew cmdStr limits
  let b2 := (nextID s.iderBits).1
  let id := (nextID s.iderBits).2
  let record : JobRecord := { ID := id, Job := job, ctxCancelled := false }
  if (s.store.lookup id).isSome then
    ({ s with iderBits := b2 }, Except.error ("id " ++ toString id ++ " already exists"))
  else
    let s2 : Service := { iderBits := b2, store := s.store ++ [(id, record)] }
    match startErr with
    | some e => (s2, Except.error e)
    | none => (s2, Except.ok record)

/-- Service.GetJob: mutex-guarded map lookup; missing id is "job not found". -/
def Service.GetJob (s : Service) (jobID : Int) : Except String JobRecord :=
  match s.store.lookup jobID with
  | none => Except.error "job not found"
  | some r => Except.ok r

def cancelRecord (store : List (Int × JobRecord)) (jobID : Int) :
    List (Int × JobRecord) :=
  store.map (fun kv => if kv.1 = jobID then
    (kv.1, { kv.2 with ctxCancelled := true }) else kv)

/-- Service.StopJob with a live caller context: look the record up (missing
id is "job not found"), call job.cancel() — which cancels the job context, so
the select's <-job.ctx.Done() arm is immediately ready — and return
job.Job.Result() computed on the record fetched from the map, i.e. on the
stored pre-Start snapshot of the Job. -/
def Service.StopJob (s : Service) (jobID : Int) :
    Service × Except String (Int × Status) :=
  match s.store.lookup jobID with
  | none => (s, Except.error "job not found")
  | some record =>
      ({ s with store := cancelRecord s.store jobID },
       Except.ok record.Job.Result)

/-- Claim C3 is violated by the code: for every command and limits, starting
a job on a fresh service (successful spawn) and then stopping it yields the
pair (-1, StatusUnknown) — exactly the pre-terminal sentinel the claim says
Stop never returns.  The registry holds a copy of the Job made before
job.Start() ran (so its cmd pointer is nil and Result() falls into its
(-1, unknown) branch), and StopJob returns as soon as the job context is
cancelled rather than when wait() has reaped the child. -/
theorem claim_C3_stopjob_returns_preterminal_pair
    (cmdStr : List String) (limits : ResourceLimit) :
    (((NewService.StartJob cmdStr limits none).1).StopJob 1).2 =
      Except.ok (-1, Status.unknown) := by
  simp [NewService, Service.StartJob, Service.StopJob, nextID, int32ofBits, jobsNew,
    List.lookup, Job.Result]

deriving instance DecidableEq for Except

/-- Counterexample to claim C5 as stated: on a fresh service, a StartJob
whose supervisor start fails (error "boom") returns the error, yet GetJob
with the freshly allocated id 1 does NOT report not-found — the placeholder
record (with the pre-Start Job snapshot) is still in the registry, because
StartJob's failure path returns without deleting it. -/
theorem claim_C5_counterexample :
    (NewService.StartJob ["x"] { CpuWeight := 100, MaxMem := 100000000, MaxIo := none }
        (some "boom")).2 = Except.error "boom" ∧
    Service.GetJob (NewService.StartJob ["x"]
        { CpuWeight := 100, MaxMem := 100000000, MaxIo := none } (some "boom")).1 1 ≠
      Except.error "job not found" ∧
    Service.GetJob (NewService.StartJob ["x"]
        { CpuWeight := 100, MaxMem := 100000000, MaxIo := none } (some "boom")).1 1 =
      Except.ok { ID := 1,
                  Job := jobsNew ["x"] { CpuWeight := 100, MaxMem := 100000000, MaxIo := none },
                  ctxCancelled := false } := by
  decide

/-- Claim C5 as amended: when the supervisor's Start fails, StartJob returns
the error but the placeholder record inserted under the freshly allocated id
is NOT removed: it stays in the registry, and a subsequent GetJob with that
id succeeds, returning the placeholder (the pre-Start Job snapshot with
status unknown) rather than not-found. -/
theorem claim_C5_placeholder_retained_on_failed_start
    (s : Service) (cmdStr : List String) (limits : ResourceLimit) (e : String)
    (hfresh : s.store.lookup (int32ofBits ((s.iderBits + 1) % 4294967296)) = none) :
    (s.StartJob cmdStr limits (some e)).2 = Except.error e ∧
    Service.GetJob (s.StartJob cmdStr limits (some e)).1
        (int32ofBits ((s.iderBits + 1) % 4294967296)) =
      Except.ok { ID := int32ofBits ((s.iderBits + 1) % 4294967296),
                  Job := jobsNew cmdStr limits, ctxCancelled := false } := by
  have hns : (s.store.lookup (int32ofBits ((s.iderBits + 1) % 4294967296))).isSome = false := by
    rw [hfresh]
    rfl
  constructor
  · simp [Service.StartJob, nextID, hns]
  · simp only [Service.StartJob, nextID, hns, Bool.false_eq_true, if_false]
    simp only [Service.GetJob, lookup_append, hfresh]
    simp [List.lookup]

/-- Witness for the amended claim C5 at the concrete input of the
counterexample: fresh service, command ["x"], default limits, error "boom". -/
theorem claim_C5_witness :
    NewService.store.lookup (int32ofBits ((NewService.iderBits + 1) % 4294967296)) = none ∧
    ((NewService.StartJob ["x"] { CpuWeight := 100, MaxMem := 100000000, MaxIo := none }
        (some "boom")).2 = Except.error "boom" ∧
      Service.GetJob (NewService.StartJob ["x"]
          { CpuWeight := 100, MaxMem := 100000000, MaxIo := none } (some "boom")).1
          (int32ofBits ((NewService.iderBits + 1) % 4294967296)) =
        Except.ok { ID := int32ofBits ((NewService.iderBits + 1) % 4294967296),
                    Job := jobsNew ["x"]
                      { CpuWeight := 100, MaxMem := 100000000, MaxIo := none },
                    ctxCancelled := false }) := by
  refine ⟨by decide, ?_⟩
  exact claim_C5_placeholder_retained_on_failed_start NewService ["x"]
    { CpuWeight := 100, MaxMem := 100000000, MaxIo := none } "boom" (by decide)

/-- A service instance together with two ghost observations used only to
state claim C8: how many StartJob calls were made, and the ids returned by
the successful ones, in call order. -/
structure SvcTrace where
  svc : Service
  calls : Nat
  okIds : List Int
deriving DecidableEq

/-- Operations of one service instance.  A start step performs one StartJob
call with any command, limits and supervisor-start outcome; a stop step
performs one StopJob call.  GetJob and StreamJob do not change the service
state and need no step. -/
inductive SvcStep : SvcTrace → SvcTrace → Prop
  | start (t : SvcTrace) (cmdStr : List String) (limits : ResourceLimit)
      (startErr : Option String) :
      SvcStep t
        { svc := (t.svc.StartJob cmdStr limits startErr).1,
          calls := t.calls + 1,
          okIds :=
            match (t.svc.StartJob cmdStr limits startErr).2 with
            | Except.ok r => t.okIds ++ [r.ID]
            | Except.error _ => t.okIds }
  | stop (t : SvcTrace) (jobID : Int) :
      SvcStep t { t with svc := (t.svc.StopJob jobID).1 }

/-- Traces of one service instance, from jobs.NewService. -/
def SvcReachable (t : SvcTrace) : Prop :=
  Relation.ReflTransGen SvcStep { svc := NewService, calls := 0, okIds := [] } t

theorem int32ofBits_small (b : Nat) (hb : b < 2147483648) :
    int32ofBits b = (b : Int) := by
  unfold int32ofBits
  have h1 : b % 4294967296 = b := Nat.mod_eq_of_lt (by omega)
  rw [h1]
  simp [hb]

theorem cancelRecord_lookup_isSome (store : List (Int × JobRecord)) (jid id : Int) :
    ((cancelRecord store jid).lookup id).isSome = (store.lookup id).isSome := by
  induction store with
  | nil => rfl
  | cons kv rest ih =>
      rcases kv with ⟨k, r⟩
      have hhead : cancelRecord ((k, r) :: rest) jid =
          (if k = jid then (k, { r with ctxCancelled := true }) else (k, r)) ::
            cancelRecord rest jid := rfl
      rw [hhead]
      have hx : (if k = jid then (k, { r with ctxCancelled := true }) else (k, r)) =
          (k, if k = jid then { r with ctxCancelled := true } else r) := by
        by_cases hj : k = jid <;> simp [hj]
      rw [hx]
      cases hbeq : id == k <;> simp [List.lookup, hbeq, ih]

theorem stopJob_store_lookup_isSome (s : Service) (jid id : Int) :
    ((s.StopJob jid).1.store.lookup id).isSome = (s.store.lookup id).isSome := by
  unfold Service.StopJob
  cases h : s.store.lookup jid
  · rfl
  · simp [cancelRecord_lookup_isSome]

theorem stopJob_iderBits (s : Service) (jid : Int) :
    (s.StopJob jid).1.iderBits = s.iderBits := by
  unfold Service.StopJob
  cases h : s.store.lookup jid <;> rfl

theorem startJob_collision (s : Service) (cmdStr : List String)
    (limits : ResourceLimit) (startErr : Option String)
    (hn : (s.store.lookup (int32ofBits ((s.iderBits + 1) % 4294967296))).isSome = true) :
    s.StartJob cmdStr limits startErr =
      ({ iderBits := (s.iderBits + 1) % 4294967296, store := s.store },
       Except.error ("id " ++ toString (int32ofBits ((s.iderBits + 1) % 4294967296)) ++
         " already exists")) := by
  simp [Service.StartJob, nextID, hn]

theorem startJob_fresh (s : Service) (cmdStr : List String)
    (limits : ResourceLimit) (startErr : Option String)
    (hn : (s.store.lookup (int32ofBits ((s.iderBits + 1) % 4294967296))).isSome = false) :
    s.StartJob cmdStr limits startErr =
      ({ iderBits := (s.iderBits + 1) % 4294967296,
         store := s.store ++ [(int32ofBits ((s.iderBits + 1) % 4294967296),
           { ID := int32ofBits ((s.iderBits + 1) % 4294967296),
             Job := jobsNew cmdStr limits, ctxCancelled := false })] },
       match startErr with
       | some e => Except.error e
       | none => Except.ok { ID := int32ofBits ((s.iderBits + 1) % 4294967296),
                             Job := jobsNew cmdStr limits, ctxCancelled := false }) := by
  cases startErr <;> simp [Service.StartJob, nextID, hn]

/-- The invariant behind claim C8: the counter bits track the number of
StartJob calls mod 2^32; every id handed out by a successful StartJob stays a
key of the store (jobs are never removed during operation); the successful
ids are pairwise distinct; and as long as fewer than 2^31 StartJob calls have
been made the successful ids are strictly increasing and bounded by the call
count. -/
def SvcInv (t : SvcTrace) : Prop :=
  t.svc.iderBits = t.calls % 4294967296 ∧
  (∀ id ∈ t.okIds, (t.svc.store.lookup id).isSome = true) ∧
  t.okIds.Nodup ∧
  (t.calls < 2147483648 →
    t.okIds.Pairwise (fun a b => a < b) ∧
    ∀ id ∈ t.okIds, 1 ≤ id ∧ id ≤ (t.calls : Int))

theorem svcInv_init : SvcInv { svc := NewService, calls := 0, okIds := [] } := by
  refine ⟨rfl, ?_, ?_, ?_⟩ <;> simp [NewService]

theorem lookup_append_isSome_left {α β : Type} [BEq α] (l1 l2 : List (α × β)) (k : α)
    (h : (l1.lookup k).isSome = true) : ((l1 ++ l2).lookup k).isSome = true := by
  rw [lookup_append]
  cases hx : l1.lookup k
  · rw [hx] at h
    cases h
  · simp [hx]

theorem lookup_append_singleton_self (l1 : List (Int × JobRecord)) (k : Int)
    (v : JobRecord) (h : (l1.lookup k).isSome = false) :
    (l1 ++ [(k, v)]).lookup k = some v := by
  rw [lookup_append]
  cases hx : l1.lookup k
  · simp [List.lookup]
  · rw [hx] at h
    cases h

theorem svcInv_step (t u : SvcTrace) (hstep : SvcStep t u) (hinv : SvcInv t) :
    SvcInv u := by
  obtain ⟨ha, hb, hc, hd⟩ := hinv
  cases hstep with
  | stop jid =>
      refine ⟨?_, ?_, hc, hd⟩
      · show (t.svc.StopJob jid).1.iderBits = t.calls % 4294967296
        rw [stopJob_iderBits]
        exact ha
      · intro id hid
        show ((t.svc.StopJob jid).1.store.lookup id).isSome = true
        rw [stopJob_store_lookup_isSome]
        exact hb id hid
  | start cmdStr limits startErr =>
      by_cases hn : (t.svc.store.lookup
          (int32ofBits ((t.svc.iderBits + 1) % 4294967296))).isSome = true
      · rw [startJob_collision t.svc cmdStr limits startErr hn]
        refine ⟨?_, hb, hc, ?_⟩
        · show (t.svc.iderBits + 1) % 4294967296 = (t.calls + 1) % 4294967296
          rw [ha]
          omega
        · show t.calls + 1 < 2147483648 →
              t.okIds.Pairwise (fun a b => a < b) ∧
              ∀ id ∈ t.okIds, 1 ≤ id ∧ id ≤ ((t.calls + 1 : Nat) : Int)
          intro h1
          obtain ⟨hpw, hbd⟩ := hd (by omega)
          refine ⟨hpw, fun id hid => ⟨(hbd id hid).1, ?_⟩⟩
          have := (hbd id hid).2
          push_cast
          push_cast at this
          omega
      · have hn2 : (t.svc.store.lookup
            (int32ofBits ((t.svc.iderBits + 1) % 4294967296))).isSome = false := by
          cases hx : (t.svc.store.lookup
              (int32ofBits ((t.svc.iderBits + 1) % 4294967296))).isSome
          · rfl
          · exact absurd hx hn
        rw [startJob_fresh t.svc cmdStr limits startErr hn2]
        have hgrow : ∀ id ∈ t.okIds,
            (((t.svc.store ++ [(int32ofBits ((t.svc.iderBits + 1) % 4294967296),
              ({ ID := int32ofBits ((t.svc.iderBits + 1) % 4294967296),
                 Job := jobsNew cmdStr limits,
                 ctxCancelled := false } : JobRecord))]).lookup id).isSome) = true :=
          fun id hid => lookup_append_isSome_left _ _ id (hb id hid)
        have hnotMem : int32ofBits ((t.svc.iderBits + 1) % 4294967296) ∉ t.okIds := by
          intro hmem
          rw [hb _ hmem] at hn2
          cases hn2
        have hbits : (t.svc.iderBits + 1) % 4294967296 = (t.calls + 1) % 4294967296 := by
          rw [ha]
          omega
        have hdNew : t.calls + 1 < 2147483648 →
            (t.okIds ++ [int32ofBits ((t.svc.iderBits + 1) % 4294967296)]).Pairwise
                (fun a b => a < b) ∧
            ∀ id ∈ t.okIds ++ [int32ofBits ((t.svc.iderBits + 1) % 4294967296)],
              1 ≤ id ∧ id ≤ ((t.calls + 1 : Nat) : Int) := by
          intro h1
          obtain ⟨hpw, hbd⟩ := hd (by omega)
          have hidv : int32ofBits ((t.svc.iderBits + 1) % 4294967296) =
              ((t.calls + 1 : Nat) : Int) := by
            rw [hbits, Nat.mod_eq_of_lt (by omega)]
            exact int32ofBits_small _ (by omega)
          constructor
          · rw [List.pairwise_append]
            refine ⟨hpw, by simp, ?_⟩
            intro a haMem b hbMem
            simp only [List.mem_singleton] at hbMem
            subst hbMem
            rw [hidv]
            have := (hbd a haMem).2
            push_cast
            push_cast at this
            omega
          · intro id hid
            rcases List.mem_append.mp hid with hold | hnew
            · refine ⟨(hbd id hold).1, ?_⟩
              have := (hbd id hold).2
              push_cast
              push_cast at this
              omega
            · simp only [List.mem_singleton] at hnew
              subst hnew
              rw [hidv]
              constructor
              · push_cast
                omega
              · push_cast
                omega
        cases startErr with
        | some e =>
            refine ⟨?_, hgrow, hc, ?_⟩
            · show (t.svc.iderBits + 1) % 4294967296 = (t.calls + 1) % 4294967296
              exact hbits
            · show t.calls + 1 < 2147483648 →
                  t.okIds.Pairwise (fun a b => a < b) ∧
                  ∀ id ∈ t.okIds, 1 ≤ id ∧ id ≤ ((t.calls + 1 : Nat) : Int)
              intro h1
              obtain ⟨hpw, hbd⟩ := hd (by omega)
              refine ⟨hpw, fun id hid => ⟨(hbd id hid).1, ?_⟩⟩
              have := (hbd id hid).2
              push_cast
              push_cast at this
              omega
        | none =>
            refine ⟨?_, ?_, ?_, ?_⟩
            · show (t.svc.iderBits + 1) % 4294967296 = (t.calls + 1) % 4294967296
              exact hbits
            · show ∀ id ∈ t.okIds ++ [int32ofBits ((t.svc.iderBits + 1) % 4294967296)],
                  (((t.svc.store ++ [(int32ofBits ((t.svc.iderBits + 1) % 4294967296),
                    ({ ID := int32ofBits ((t.svc.iderBits + 1) % 4294967296),
                       Job := jobsNew cmdStr limits,
                       ctxCancelled := false } : JobRecord))]).lookup id).isSome) = true
              intro id hid
              rcases List.mem_append.mp hid with hold | hnew
              · exact hgrow id hold
              · simp only [List.mem_singleton] at hnew
                subst hnew
                rw [lookup_append_singleton_self _ _ _ hn2]
                rfl
            · show (t.okIds ++ [int32ofBits ((t.svc.iderBits + 1) % 4294967296)]).Nodup
              rw [List.nodup_append]
              exact ⟨hc, List.nodup_singleton _, by
                intro a haMem hbMem
                simp only [List.mem_singleton] at hbMem
                subst hbMem
                exact hnotMem haMem⟩
            · exact hdNew

theorem svcInv_reachable (t : SvcTrace) (h : SvcReachable t) : SvcInv t := by
  induction h with
  | refl => exact svcInv_init
  | tail _ hstep ih => exact svcInv_step _ _ hstep ih

def c8Limits : ResourceLimit :=
  { CpuWeight := 100, MaxMem := 100000000, MaxIo := none }

/-- A service whose int32 id counter stands at 2147483646, i.e. after
2147483646 StartJob calls (svcInv_reachable's first component: the counter
bits always equal the call count mod 2^32).  The store is shown empty: only
the absence of the keys 2147483647 and -2147483648 matters below, and in a
real run all stored ids at that point are positive and below 2147483647. -/
def c8WrapSvc : Service :=
  { iderBits := 2147483646, store := [] }

/-- Counterexample to claim C8 as stated: at the counter position 2147483646
the next two successful Start calls return the ids 2147483647 and then
-2147483648 — the later id is NOT strictly larger, because
atomic.AddInt32 wraps the 32-bit counter.  The same wrap is visible on
ider.nextID directly. -/
theorem claim_C8_counterexample :
    (nextID 2147483646).2 = 2147483647 ∧
    (nextID (nextID 2147483646).1).2 = -2147483648 ∧
    ¬ ((nextID 2147483646).2 < (nextID (nextID 2147483646).1).2) ∧
    (c8WrapSvc.StartJob ["x"] c8Limits none).2 =
      Except.ok { ID := 2147483647, Job := jobsNew ["x"] c8Limits,
                  ctxCancelled := false } ∧
    ((c8WrapSvc.StartJob ["x"] c8Limits none).1.StartJob ["x"] c8Limits none).2 =
      Except.ok { ID := -2147483648, Job := jobsNew ["x"] c8Limits,
                  ctxCancelled := false } := by
  refine ⟨by decide, by decide, by decide, ?_, ?_⟩ <;> decide

/-- Claim C8 as amended: within a single service instance every successful
Start returns a distinct job id (unconditionally: the collision check against
the registry, from which jobs are never removed during operation, turns any
reallocation of a live id into an error instead of a duplicate), and the ids
are strictly increasing across successive Start calls as long as fewer than
2^31 Start calls have been made; at the 2^31-th allocation the int32 counter
wraps to -2147483648 and monotonicity fails. -/
theorem claim_C8_ids_distinct_and_monotone_before_wrap (t : SvcTrace)
    (h : SvcReachable t) :
    t.okIds.Nodup ∧
    (t.calls < 2147483648 → t.okIds.Pairwise (fun a b => a < b)) := by
  have hinv := svcInv_reachable t h
  exact ⟨hinv.2.2.1, fun hcalls => (hinv.2.2.2 hcalls).1⟩

def c8Rec (id : Int) : JobRecord :=
  { ID := id, Job := jobsNew ["x"] c8Limits, ctxCancelled := false }

/-- The trace of two successful Start calls on a fresh service. -/
def c8State : SvcTrace :=
  { svc := { iderBits := 2, store := [(1, c8Rec 1), (2, c8Rec 2)] },
    calls := 2, okIds := [1, 2] }

/-- Witness for the amended claim C8: after two successful Start calls on a
fresh service the successful ids are [1, 2] — distinct and increasing. -/
theorem claim_C8_witness :
    SvcReachable c8State ∧ c8State.okIds.Nodup ∧
    (c8State.calls < 2147483648 → c8State.okIds.Pairwise (fun a b => a < b)) := by
  have h1 : SvcStep { svc := NewService, calls := 0, okIds := [] }
      { svc := { iderBits := 1, store := [(1, c8Rec 1)] }, calls := 1, okIds := [1] } :=
    SvcStep.start _ ["x"] c8Limits none
  have h2 : SvcStep
      { svc := { iderBits := 1, store := [(1, c8Rec 1)] }, calls := 1, okIds := [1] }
      c8State :=
    SvcStep.start _ ["x"] c8Limits none
  have hreach : SvcReachable c8State :=
    Relation.ReflTransGen.tail (Relation.ReflTransGen.single h1) h2
  have hmain := claim_C8_ids_distinct_and_monotone_before_wrap c8State hreach
  exact ⟨hreach, hmain.1, hmain.2⟩
